import Mathlib

/-!
Verification of the reconciliation suggestion engine, applier and
auto-reconcile orchestration of `odoo_agent.py`.

Modelling conventions:
* currency amounts and confidence scores are rationals (`ℚ`);
* dates are day numbers (`Int`), so that the Python
  `(b_date - i_date).days` becomes integer subtraction; an absent date
  is `none`;
* the external Odoo ledger reached over RPC is a record of oracle
  functions (`Ledger`); the reconcile primitive returns
  `Except String Unit`, where `Except.error e` models a raised
  exception whose `str` is `e`;
* Python's `list.sort(key=lambda x: -x["score"])` is a stable sort by
  descending score; it is modelled by `List.insertionSort` with the
  relation `scoreGE`, which Mathlib proves sorted and which is stable.
-/

/-- One row of `bank_unreconciled`'s response, as consumed by
`reconciliation_suggest`: `amount` is `abs(balance)`, `date` and
`partner` may be absent. -/
structure BankLine where
  id : Nat
  amount : ℚ
  date : Option Int
  partner : Option String
  deriving DecidableEq

/-- One row of `invoices_unreconciled`'s response, as consumed by
`reconciliation_suggest`. -/
structure Invoice where
  id : Nat
  name : Option String
  invoice_date : Option Int
  partner : Option String
  amount_residual : ℚ
  payment_state : String
  state : String
  deriving DecidableEq

/-- A suggestion record appended by `reconciliation_suggest`. -/
structure Suggestion where
  bank_line_id : Nat
  move_id : Nat
  amount : ℚ
  bank_date : Option Int
  invoice_date : Option Int
  invoice : Option String
  partner : Option String
  score : ℚ
  deriving DecidableEq

/-- The date tolerance check: `days_ok` starts `True` and is replaced by
`abs((b_date - i_date).days) <= 5` only when both dates are present. -/
def days_ok (b_date i_date : Option Int) : Bool :=
  match b_date, i_date with
  | some b, some i => (b - i).natAbs ≤ 5
  | _, _ => true

/-- `s.lower()[:5]`: lowercase the code points, keep the first five.
Python slices strings by code point, so the model works on the
character list. -/
def lower5 (s : String) : List Char :=
  (s.data.map Char.toLower).take 5

/-- The partner bonus test:
`bl.get("partner") and mv.get("partner") and bl["partner"].lower()[:5] == mv["partner"].lower()[:5]`.
Python truthiness makes `None` and `""` both fail the first two tests. -/
def partner_bonus (bp ip : Option String) : Bool :=
  match bp, ip with
  | some p, some q => p ≠ "" && q ≠ "" && (lower5 p == lower5 q)
  | _, _ => false

/-- The body of the inner loop of `reconciliation_suggest` for one
(bank line, invoice) pair: `none` when the pair is rejected by the
amount or date tolerance, otherwise the single suggestion appended. -/
def suggestPair (bl : BankLine) (mv : Invoice) : Option Suggestion :=
  if |bl.amount - mv.amount_residual| ≤ 1/2 then
    if days_ok bl.date mv.invoice_date then
      some
        { bank_line_id := bl.id
          move_id := mv.id
          amount := mv.amount_residual
          bank_date := bl.date
          invoice_date := mv.invoice_date
          invoice := mv.name
          partner := mv.partner
          score := if partner_bonus bl.partner mv.partner then 98/100 else 9/10 }
    else none
  else none

/-- The `suggestions` list in encounter order, before sorting: outer
loop over bank lines, inner loop over invoices. -/
def rawSuggestions (bank_items : List BankLine) (inv_items : List Invoice) :
    List Suggestion :=
  bank_items.flatMap fun bl => inv_items.filterMap fun mv => suggestPair bl mv

/-- `a` sorts no later than `b` for `sort(key=lambda x: -x["score"])`. -/
def scoreGE (a b : Suggestion) : Prop := b.score ≤ a.score

instance : DecidableRel scoreGE := fun a b =>
  inferInstanceAs (Decidable (b.score ≤ a.score))

instance : IsTotal Suggestion scoreGE := ⟨fun a b => le_total b.score a.score⟩

instance : IsTrans Suggestion scoreGE :=
  ⟨fun _ _ _ hab hbc => le_trans hbc hab⟩

/-- The `items` list returned by `reconciliation_suggest`: all pairs
scored, then stably sorted by descending score. -/
def reconciliation_suggest (bank_items : List BankLine)
    (inv_items : List Invoice) : List Suggestion :=
  List.insertionSort scoreGE (rawSuggestions bank_items inv_items)

/-- The per-pair outcome inside `reconciliation_apply`: the pair is
appended to `applied`, or to `skipped` with a reason string. -/
inductive Outcome where
  | applied
  | skipped (reason : String)
  deriving DecidableEq

/-- The external Odoo ledger reached over `models.execute_kw`, as seen
by `reconciliation_apply` during one request:
`payable_line_ids mv` is `get_invoice_payable_line_ids(mv)` (the
invoice's unreconciled payable-type move lines); `reconciled bl` is the
fresh `read` of the bank line's `reconciled` flag; `reconcile ids` is
the `account.move.line.reconcile` primitive, `Except.error e`
standing for a raised exception with `str(e) = e`. -/
structure Ledger where
  payable_line_ids : Nat → List Nat
  reconciled : Nat → Bool
  reconcile : List Nat → Except String Unit

/-- One iteration of the `for m in matches` loop body, together with
the list of reconcile RPC calls it issues (empty when the pair is
skipped before the call). -/
def processPair (lg : Ledger) (p : Nat × Nat) : Outcome × List (List Nat) :=
  let inv_lines := lg.payable_line_ids p.2
  if inv_lines = [] then
    (Outcome.skipped "No payable lines", [])
  else if lg.reconciled p.1 then
    (Outcome.skipped "Already reconciled", [])
  else
    let line_ids := p.1 :: inv_lines
    match lg.reconcile line_ids with
    | Except.ok _ => (Outcome.applied, [line_ids])
    | Except.error e => (Outcome.skipped e, [line_ids])

/-- The response of `reconciliation_apply`: the `applied` and `skipped`
lists, plus the trace of reconcile RPC calls issued (to state that a
skipped pair triggers no call and no state change). -/
structure ApplyResult where
  applied : List (Nat × Nat)
  skipped : List ((Nat × Nat) × String)
  calls : List (List Nat)
  deriving DecidableEq

/-- The `for m in matches` loop of `reconciliation_apply`, processing
pairs in order and accumulating `applied` / `skipped` entries. -/
def reconciliation_apply (lg : Ledger) : List (Nat × Nat) → ApplyResult
  | [] => { applied := [], skipped := [], calls := [] }
  | p :: ms =>
      let rest := reconciliation_apply lg ms
      match processPair lg p with
      | (Outcome.applied, cs) =>
          { applied := p :: rest.applied, skipped := rest.skipped,
            calls := cs ++ rest.calls }
      | (Outcome.skipped e, cs) =>
          { applied := rest.applied, skipped := (p, e) :: rest.skipped,
            calls := cs ++ rest.calls }

/-- The endpoint around the loop: `matches = payload.get("matches") or []`
never raises, so the endpoint's only result channel is a normal
response (`Except.ok`); no validation error is ever produced. -/
def reconciliation_apply_request (lg : Ledger)
    (mlist : Option (List (Nat × Nat))) : Except String ApplyResult :=
  Except.ok (reconciliation_apply lg (mlist.getD []))

/-- One `account.move` row as stored in the external ledger, with the
fields tested by the search domain of `invoices_unreconciled`. -/
structure InvoiceRow where
  id : Nat
  name : Option String
  move_type : String
  state : String
  payment_state : String
  amount_residual : ℚ
  invoice_date : Option Int
  partner : Option String
  company_id : Nat
  deriving DecidableEq

/-- The search domain of `invoices_unreconciled`: an implicit
conjunction of `move_type in [...]`, `state in [...]`, the
disjunction `"|", amount_residual > 0.01, payment_state != "paid"`,
and the optional date/company filters (appended only when the Python
argument is truthy, hence the `c = 0` case). -/
def invoices_unreconciled_domain (date_from date_to : Option Int)
    (company_id : Option Nat) (r : InvoiceRow) : Bool :=
  (r.move_type == "in_invoice" || r.move_type == "in_refund") &&
  (r.state == "posted" || r.state == "draft") &&
  (((1:ℚ)/100 < r.amount_residual) || r.payment_state != "paid") &&
  (match date_from with
   | none => true
   | some df => match r.invoice_date with
     | some d => df ≤ d
     | none => false) &&
  (match date_to with
   | none => true
   | some dt => match r.invoice_date with
     | some d => d ≤ dt
     | none => false) &&
  (match company_id with
   | none => true
   | some c => c = 0 || r.company_id == c)

/-- The projection of a matched `account.move` row onto the item shape
consumed by `reconciliation_suggest`. -/
def invoiceItem (r : InvoiceRow) : Invoice :=
  { id := r.id, name := r.name, invoice_date := r.invoice_date,
    partner := r.partner, amount_residual := r.amount_residual,
    payment_state := r.payment_state, state := r.state }

/-- `invoices_unreconciled`: the external `search_read` returns the
rows matching the domain (in the server's order, taken as the order of
`rows`), truncated to `limit`, projected to items. -/
def invoices_unreconciled (rows : List InvoiceRow)
    (date_from date_to : Option Int) (company_id : Option Nat)
    (limit : Nat) : List Invoice :=
  ((rows.filter (invoices_unreconciled_domain date_from date_to company_id)).take
    limit).map invoiceItem

/-- The default of the `min_score` query parameter of
`task_auto_reconcile`. -/
def auto_reconcile_default_min_score : ℚ := 95/100

/-- `task_auto_reconcile`: suggest, keep suggestions with
`score >= min_score`, apply the corresponding
`(bank_line_id, move_id)` pairs, return the three counts
`(suggested, applied, skipped)`. -/
def task_auto_reconcile (lg : Ledger) (bank_items : List BankLine)
    (inv_items : List Invoice) (min_score : ℚ) : Nat × Nat × Nat :=
  let sug := reconciliation_suggest bank_items inv_items
  let high := sug.filter fun m => min_score ≤ m.score
  let res := reconciliation_apply lg
    (high.map fun m => (m.bank_line_id, m.move_id))
  (sug.length, res.applied.length, res.skipped.length)

lemma mem_rawSuggestions {B : List BankLine} {I : List Invoice}
    {s : Suggestion} :
    s ∈ rawSuggestions B I ↔
      ∃ bl ∈ B, ∃ mv ∈ I, suggestPair bl mv = some s := by
  simp [rawSuggestions, List.mem_flatMap, List.mem_filterMap]

lemma mem_reconciliation_suggest {B : List BankLine} {I : List Invoice}
    {s : Suggestion} :
    s ∈ reconciliation_suggest B I ↔ s ∈ rawSuggestions B I :=
  (List.perm_insertionSort scoreGE _).mem_iff

lemma suggestPair_score {bl : BankLine} {mv : Invoice} {s : Suggestion}
    (h : suggestPair bl mv = some s) :
    s.score = 9/10 ∨ s.score = 98/100 := by
  unfold suggestPair at h
  split at h
  · split at h
    · rw [Option.some.injEq] at h
      subst h
      by_cases hb : partner_bonus bl.partner mv.partner = true
      · right; simp [hb]
      · left; simp [hb]
    · exact absurd h (by simp)
  · exact absurd h (by simp)

lemma partner_bonus_iff (bp ip : Option String) :
    partner_bonus bp ip = true ↔
      ∃ p q, bp = some p ∧ ip = some q ∧ p ≠ "" ∧ q ≠ "" ∧
        lower5 p = lower5 q := by
  cases bp with
  | none => simp [partner_bonus]
  | some p =>
    cases ip with
    | none => simp [partner_bonus]
    | some q => simp [partner_bonus, and_assoc]

/-- C1: a (bank line, invoice) pair whose amount difference exceeds the
fixed absolute tolerance 0.50 produces no suggestion, whatever the
dates and partner labels are. -/
theorem suggest_no_pair_beyond_amount_tolerance (bl : BankLine)
    (mv : Invoice) (h : 1/2 < |bl.amount - mv.amount_residual|) :
    suggestPair bl mv = none := by
  unfold suggestPair
  rw [if_neg (not_le.mpr h)]

theorem suggest_no_pair_beyond_amount_tolerance_witness :
    (1:ℚ)/2 <
      |(({ id := 1, amount := 1203/10, date := some 10,
           partner := some "ACME Corp" } : BankLine)).amount -
        (({ id := 2, name := some "INV2", invoice_date := some 12,
            partner := some "ACME SL", amount_residual := 121,
            payment_state := "not_paid", state := "posted" } :
            Invoice)).amount_residual| ∧
    suggestPair
      { id := 1, amount := 1203/10, date := some 10,
        partner := some "ACME Corp" }
      { id := 2, name := some "INV2", invoice_date := some 12,
        partner := some "ACME SL", amount_residual := 121,
        payment_state := "not_paid", state := "posted" } = none :=
  ⟨by norm_num [lt_abs],
   suggest_no_pair_beyond_amount_tolerance _ _ (by norm_num [lt_abs])⟩

/-- C2: for a pair within the amount tolerance, if both dates are
present and differ by more than 5 days the pair is rejected; if either
date is absent the date check is skipped and the pair is suggested
unconditionally. -/
theorem suggest_date_tolerance (bl : BankLine) (mv : Invoice)
    (ha : |bl.amount - mv.amount_residual| ≤ 1/2) :
    (∀ b i, bl.date = some b → mv.invoice_date = some i →
      5 < (b - i).natAbs → suggestPair bl mv = none) ∧
    ((bl.date = none ∨ mv.invoice_date = none) →
      days_ok bl.date mv.invoice_date = true ∧
        (suggestPair bl mv).isSome = true) := by
  constructor
  · intro b i hb hi hgt
    have hd : days_ok bl.date mv.invoice_date = false := by
      rw [hb, hi]
      simp only [days_ok, decide_eq_false_iff_not]
      omega
    unfold suggestPair
    rw [if_pos ha, hd]
    simp
  · intro hnone
    have hd : days_ok bl.date mv.invoice_date = true := by
      rcases hnone with h | h
      · rw [h]; rfl
      · rw [h]; cases bl.date <;> rfl
    refine ⟨hd, ?_⟩
    unfold suggestPair
    rw [if_pos ha, hd]
    simp

theorem suggest_date_tolerance_witness :
    |(({ id := 1, amount := 1203/10, date := some 10,
         partner := none } : BankLine)).amount -
      (({ id := 2, name := none, invoice_date := some 30,
          partner := none, amount_residual := 120,
          payment_state := "not_paid", state := "posted" } :
          Invoice)).amount_residual| ≤ 1/2 ∧
    suggestPair
      { id := 1, amount := 1203/10, date := some 10, partner := none }
      { id := 2, name := none, invoice_date := some 30, partner := none,
        amount_residual := 120, payment_state := "not_paid",
        state := "posted" } = none := by
  have h := suggest_date_tolerance
    { id := 1, amount := 1203/10, date := some 10, partner := none }
    { id := 2, name := none, invoice_date := some 30, partner := none,
      amount_residual := 120, payment_state := "not_paid",
      state := "posted" } (by norm_num [abs_le])
  exact ⟨by norm_num [abs_le], h.1 10 30 rfl rfl (by norm_num)⟩

/-- C3: a pair passing the amount and date checks yields exactly one
suggestion; its score is 0.98 precisely when both partner labels are
non-empty and agree on the lowercase first 5 characters, and 0.90
otherwise. -/
theorem suggest_pass_score (bl : BankLine) (mv : Invoice)
    (ha : |bl.amount - mv.amount_residual| ≤ 1/2)
    (hd : days_ok bl.date mv.invoice_date = true) :
    ∃ s : Suggestion, suggestPair bl mv = some s ∧
      rawSuggestions [bl] [mv] = [s] ∧
      ((s.score = 98/100 ↔
        ∃ p q, bl.partner = some p ∧ mv.partner = some q ∧
          p ≠ "" ∧ q ≠ "" ∧ lower5 p = lower5 q) ∧
       (s.score = 98/100 ∨ s.score = 9/10)) := by
  have hsome : suggestPair bl mv = some
      { bank_line_id := bl.id, move_id := mv.id,
        amount := mv.amount_residual, bank_date := bl.date,
        invoice_date := mv.invoice_date, invoice := mv.name,
        partner := mv.partner,
        score := if partner_bonus bl.partner mv.partner then 98/100
          else 9/10 } := by
    unfold suggestPair
    rw [if_pos ha, hd]
    simp
  refine ⟨_, hsome, ?_, ?_, ?_⟩
  · simp [rawSuggestions, hsome]
  · rw [← partner_bonus_iff]
    by_cases hb : partner_bonus bl.partner mv.partner = true
    · simp [hb]
    · simp only [hb, iff_false]
      simp only [Bool.not_eq_true] at hb
      simp [hb]
      norm_num
  · by_cases hb : partner_bonus bl.partner mv.partner = true
    · left; simp [hb]
    · right
      simp only [Bool.not_eq_true] at hb
      simp [hb]

theorem suggest_pass_score_witness :
    |(({ id := 1, amount := 1203/10, date := some 10,
         partner := some "ACME Corp" } : BankLine)).amount -
      (({ id := 2, name := some "INV1", invoice_date := some 12,
          partner := some "ACME SL", amount_residual := 120,
          payment_state := "not_paid", state := "posted" } :
          Invoice)).amount_residual| ≤ 1/2 ∧
    days_ok (some 10) (some 12) = true ∧
    ∃ s : Suggestion,
      suggestPair
        { id := 1, amount := 1203/10, date := some 10,
          partner := some "ACME Corp" }
        { id := 2, name := some "INV1", invoice_date := some 12,
          partner := some "ACME SL", amount_residual := 120,
          payment_state := "not_paid", state := "posted" } = some s ∧
      s.score = 98/100 := by
  have h := suggest_pass_score
    { id := 1, amount := 1203/10, date := some 10,
      partner := some "ACME Corp" }
    { id := 2, name := some "INV1", invoice_date := some 12,
      partner := some "ACME SL", amount_residual := 120,
      payment_state := "not_paid", state := "posted" }
    (by norm_num [abs_le]) (by decide)
  obtain ⟨s, hs, _, hiff, _⟩ := h
  refine ⟨by norm_num [abs_le], by decide, s, hs, ?_⟩
  exact hiff.mpr ⟨"ACME Corp", "ACME SL", rfl, rfl, by decide, by decide,
    by decide⟩

/-- C10: every suggestion returned by `reconciliation_suggest` has
score exactly 0.90 or exactly 0.98. -/
theorem suggest_score_two_valued (B : List BankLine) (I : List Invoice)
    (s : Suggestion) (hs : s ∈ reconciliation_suggest B I) :
    s.score = 9/10 ∨ s.score = 98/100 := by
  rw [mem_reconciliation_suggest, mem_rawSuggestions] at hs
  obtain ⟨bl, _, mv, _, h⟩ := hs
  exact suggestPair_score h

theorem suggest_score_two_valued_witness :
    ∃ s : Suggestion,
      s ∈ reconciliation_suggest
        [{ id := 1, amount := 1203/10, date := some 10,
           partner := none }]
        [{ id := 2, name := none, invoice_date := some 12,
           partner := none, amount_residual := 120,
           payment_state := "not_paid", state := "posted" }] ∧
      (s.score = 9/10 ∨ s.score = 98/100) := by
  have hmem :
      ({ bank_line_id := 1, move_id := 2, amount := 120, bank_date := some 10, invoice_date := some 12, invoice := none, partner := none, score := 9/10 } : Suggestion) ∈
      reconciliation_suggest
        [{ id := 1, amount := 1203/10, date := some 10,
           partner := none }]
        [{ id := 2, name := none, invoice_date := some 12,
           partner := none, amount_residual := 120,
           payment_state := "not_paid", state := "posted" }] := by
    rw [mem_reconciliation_suggest, mem_rawSuggestions]
    refine ⟨_, List.mem_singleton.mpr rfl, _,
      List.mem_singleton.mpr rfl, ?_⟩
    unfold suggestPair
    rw [if_pos (by norm_num [abs_le])]
    simp [days_ok, partner_bonus]
  exact ⟨_, hmem, suggest_score_two_valued _ _ _ hmem⟩

lemma orderedInsert_append_not_rel (a : Suggestion)
    (P Q : List Suggestion) (h : ∀ b ∈ P, ¬ scoreGE a b) :
    List.orderedInsert scoreGE a (P ++ Q) =
      P ++ List.orderedInsert scoreGE a Q := by
  induction P with
  | nil => simp
  | cons b P ih =>
      simp only [List.cons_append, List.orderedInsert]
      rw [if_neg (h b (by simp))]
      exact congrArg (fun t => b :: t) (ih fun x hx => h x (by simp [hx]))

lemma orderedInsert_all_rel (a : Suggestion) (L : List Suggestion)
    (h : ∀ b ∈ L, scoreGE a b) :
    List.orderedInsert scoreGE a L = a :: L := by
  cases L with
  | nil => rfl
  | cons b L => simp [List.orderedInsert, if_pos (h b (by simp))]

/-- On lists whose scores all lie in {0.90, 0.98}, the stable sort by
descending score is: the 0.98-scored entries in encounter order,
followed by the 0.90-scored entries in encounter order. -/
lemma insertionSort_two_score (l : List Suggestion)
    (h : ∀ s ∈ l, s.score = 9/10 ∨ s.score = 98/100) :
    List.insertionSort scoreGE l =
      l.filter (fun s => s.score == 98/100) ++
        l.filter (fun s => s.score == 9/10) := by
  induction l with
  | nil => rfl
  | cons a l ih =>
      have ha := h a (by simp)
      have hl : ∀ s ∈ l, s.score = 9/10 ∨ s.score = 98/100 :=
        fun s hs => h s (by simp [hs])
      rw [List.insertionSort, ih hl]
      rcases ha with h9 | h98
      · rw [orderedInsert_append_not_rel]
        · rw [orderedInsert_all_rel]
          · have e98 : (a.score == (98:ℚ)/100) = false := by
              simp [h9]; norm_num
            have e9 : (a.score == (9:ℚ)/10) = true := by simp [h9]
            simp [List.filter_cons, e98, e9]
          · intro b hb
            have hb9 := (List.mem_filter.mp hb).2
            rw [beq_iff_eq] at hb9
            unfold scoreGE
            rw [hb9, h9]
        · intro b hb
          have hb98 := (List.mem_filter.mp hb).2
          rw [beq_iff_eq] at hb98
          unfold scoreGE
          rw [hb98, h9]
          norm_num
      · rw [orderedInsert_all_rel]
        · have e98 : (a.score == (98:ℚ)/100) = true := by simp [h98]
          have e9 : (a.score == (9:ℚ)/10) = false := by
            simp [h98]; norm_num
          simp [List.filter_cons, e98, e9]
        · intro b hb
          rcases List.mem_append.mp hb with hb' | hb'
          · have hb98 := (List.mem_filter.mp hb').2
            rw [beq_iff_eq] at hb98
            unfold scoreGE
            rw [hb98, h98]
          · have hb9 := (List.mem_filter.mp hb').2
            rw [beq_iff_eq] at hb9
            unfold scoreGE
            rw [hb9, h98]
            norm_num

lemma rawSuggestions_score (B : List BankLine) (I : List Invoice) :
    ∀ s ∈ rawSuggestions B I, s.score = 9/10 ∨ s.score = 98/100 := by
  intro s hs
  rw [mem_rawSuggestions] at hs
  obtain ⟨bl, _, mv, _, hp⟩ := hs
  exact suggestPair_score hp

/-- C4: the returned list is sorted by descending score, and for each
score value the entries carrying it keep their encounter order (outer
loop over bank lines in input order, inner loop over invoices in input
order), i.e. filtering the output by any score value gives the same
list as filtering the pre-sort encounter-order list. -/
theorem suggest_sorted_desc_stable (B : List BankLine)
    (I : List Invoice) :
    List.Sorted scoreGE (reconciliation_suggest B I) ∧
    ∀ q : ℚ, (reconciliation_suggest B I).filter
        (fun s => s.score == q) =
      (rawSuggestions B I).filter (fun s => s.score == q) := by
  refine ⟨List.sorted_insertionSort scoreGE _, fun q => ?_⟩
  rw [reconciliation_suggest,
    insertionSort_two_score _ (rawSuggestions_score B I),
    List.filter_append, List.filter_filter, List.filter_filter]
  by_cases hq98 : q = 98/100
  · subst hq98
    have e1 : (rawSuggestions B I).filter
        (fun a => (a.score == (98:ℚ)/100) && (a.score == 98/100)) =
        (rawSuggestions B I).filter (fun a => a.score == (98:ℚ)/100) :=
      List.filter_congr fun a _ => by cases h : (a.score == (98:ℚ)/100) <;> simp [h]
    have e2 : (rawSuggestions B I).filter
        (fun a => (a.score == (98:ℚ)/100) && (a.score == 9/10)) = [] := by
      refine List.filter_eq_nil_iff.mpr fun a _ => ?_
      simp only [Bool.and_eq_true, beq_iff_eq, not_and]
      intro h1 h2
      rw [h1] at h2
      norm_num at h2
    rw [e1, e2, List.append_nil]
  · by_cases hq9 : q = 9/10
    · subst hq9
      have e1 : (rawSuggestions B I).filter
          (fun a => (a.score == (9:ℚ)/10) && (a.score == 98/100)) = [] := by
        refine List.filter_eq_nil_iff.mpr fun a _ => ?_
        simp only [Bool.and_eq_true, beq_iff_eq, not_and]
        intro h1 h2
        rw [h1] at h2
        norm_num at h2
      have e2 : (rawSuggestions B I).filter
          (fun a => (a.score == (9:ℚ)/10) && (a.score == 9/10)) =
          (rawSuggestions B I).filter (fun a => a.score == (9:ℚ)/10) :=
        List.filter_congr fun a _ => by cases h : (a.score == (9:ℚ)/10) <;> simp [h]
      rw [e1, e2, List.nil_append]
    · have e1 : (rawSuggestions B I).filter
          (fun a => (a.score == q) && (a.score == 98/100)) = [] := by
        refine List.filter_eq_nil_iff.mpr fun a _ => ?_
        simp only [Bool.and_eq_true, beq_iff_eq, not_and]
        intro h1
        rw [h1]
        exact hq98
      have e2 : (rawSuggestions B I).filter
          (fun a => (a.score == q) && (a.score == 9/10)) = [] := by
        refine List.filter_eq_nil_iff.mpr fun a _ => ?_
        simp only [Bool.and_eq_true, beq_iff_eq, not_and]
        intro h1
        rw [h1]
        exact hq9
      have e3 : (rawSuggestions B I).filter (fun a => a.score == q) = [] := by
        refine List.filter_eq_nil_iff.mpr fun a ha => ?_
        simp only [beq_iff_eq]
        intro hq
        rcases rawSuggestions_score B I a ha with h | h
        · exact hq9 (hq.symm.trans h)
        · exact hq98 (hq.symm.trans h)
      rw [e1, e2, e3]
      rfl

/-- Whether the loop body files the pair under `applied`. -/
def isApplied (lg : Ledger) (p : Nat × Nat) : Bool :=
  match (processPair lg p).1 with
  | Outcome.applied => true
  | Outcome.skipped _ => false

/-- The `skipped` entry the loop body files for the pair, if any. -/
def skipEntry (lg : Ledger) (p : Nat × Nat) :
    Option ((Nat × Nat) × String) :=
  match (processPair lg p).1 with
  | Outcome.applied => none
  | Outcome.skipped e => some (p, e)

lemma reconciliation_apply_applied (lg : Ledger)
    (ms : List (Nat × Nat)) :
    (reconciliation_apply lg ms).applied = ms.filter (isApplied lg) := by
  induction ms with
  | nil => rfl
  | cons p ms ih =>
      rcases hpp : processPair lg p with ⟨o, cs⟩
      cases o <;>
        simp [reconciliation_apply, hpp, isApplied, List.filter_cons, ih]

lemma reconciliation_apply_skipped (lg : Ledger)
    (ms : List (Nat × Nat)) :
    (reconciliation_apply lg ms).skipped = ms.filterMap (skipEntry lg) := by
  induction ms with
  | nil => rfl
  | cons p ms ih =>
      rcases hpp : processPair lg p with ⟨o, cs⟩
      cases o <;>
        simp [reconciliation_apply, hpp, skipEntry, List.filterMap_cons, ih]

lemma reconciliation_apply_length (lg : Ledger)
    (ms : List (Nat × Nat)) :
    (reconciliation_apply lg ms).applied.length +
      (reconciliation_apply lg ms).skipped.length = ms.length := by
  induction ms with
  | nil => rfl
  | cons p ms ih =>
      rcases hpp : processPair lg p with ⟨o, cs⟩
      cases o <;>
        simp [reconciliation_apply, hpp] <;> omega

/-- C5: a pair whose invoice has no unreconciled payable line is
skipped with reason "No payable lines"; a pair whose bank line's
freshly read reconciled flag is set is skipped with reason
"Already reconciled"; in both cases no reconcile call is issued and
the remaining pairs are processed unchanged; and a reconcile call is
issued for a pair only when payable lines exist and the flag is
clear. -/
theorem apply_skip_conditions (lg : Ledger) (p : Nat × Nat)
    (ms : List (Nat × Nat)) :
    (lg.payable_line_ids p.2 = [] →
      reconciliation_apply lg (p :: ms) =
        { applied := (reconciliation_apply lg ms).applied,
          skipped := (p, "No payable lines") ::
            (reconciliation_apply lg ms).skipped,
          calls := (reconciliation_apply lg ms).calls }) ∧
    (lg.payable_line_ids p.2 ≠ [] → lg.reconciled p.1 = true →
      reconciliation_apply lg (p :: ms) =
        { applied := (reconciliation_apply lg ms).applied,
          skipped := (p, "Already reconciled") ::
            (reconciliation_apply lg ms).skipped,
          calls := (reconciliation_apply lg ms).calls }) ∧
    ((processPair lg p).2 ≠ [] →
      lg.payable_line_ids p.2 ≠ [] ∧ lg.reconciled p.1 = false) := by
  refine ⟨?_, ?_, ?_⟩
  · intro h
    have hpp : processPair lg p = (Outcome.skipped "No payable lines", []) := by
      simp [processPair, h]
    simp [reconciliation_apply, hpp]
  · intro h hrec
    have hpp : processPair lg p = (Outcome.skipped "Already reconciled", []) := by
      simp [processPair, h, hrec]
    simp [reconciliation_apply, hpp]
  · intro hc
    by_cases h : lg.payable_line_ids p.2 = []
    · exact absurd (by simp [processPair, h]) hc
    · by_cases hrec : lg.reconciled p.1 = true
      · exact absurd (by simp [processPair, h, hrec]) hc
      · exact ⟨h, by simpa using hrec⟩

theorem apply_skip_conditions_witness :
    (Ledger.mk (fun _ => []) (fun _ => false) (fun _ => Except.ok ())).payable_line_ids 2 = [] ∧
    reconciliation_apply
      (Ledger.mk (fun _ => []) (fun _ => false) (fun _ => Except.ok ()))
      [(1, 2)] =
      { applied := [], skipped := [((1, 2), "No payable lines")],
        calls := [] } := by
  have h := (apply_skip_conditions
    (Ledger.mk (fun _ => []) (fun _ => false) (fun _ => Except.ok ()))
    (1, 2) []).1 rfl
  exact ⟨rfl, h⟩

/-- C6: every requested pair ends in exactly one outcome: `applied`
and `skipped` partition the request list regardless of earlier pairs'
outcomes (a raised reconcile error is absorbed into a skip entry for
that pair alone); a pair whose reconcile call succeeds is applied, and
a pair whose reconcile call raises `e` is skipped with reason `e`. -/
theorem apply_outcome_partition (lg : Ledger) (ms : List (Nat × Nat)) :
    ((reconciliation_apply lg ms).applied.length +
      (reconciliation_apply lg ms).skipped.length = ms.length) ∧
    (reconciliation_apply lg ms).applied = ms.filter (isApplied lg) ∧
    (reconciliation_apply lg ms).skipped =
      ms.filterMap (skipEntry lg) ∧
    (∀ p ∈ ms, ∀ e : String,
      lg.payable_line_ids p.2 ≠ [] → lg.reconciled p.1 = false →
      lg.reconcile (p.1 :: lg.payable_line_ids p.2) = Except.error e →
      (p, e) ∈ (reconciliation_apply lg ms).skipped) ∧
    (∀ p ∈ ms,
      lg.payable_line_ids p.2 ≠ [] → lg.reconciled p.1 = false →
      lg.reconcile (p.1 :: lg.payable_line_ids p.2) = Except.ok () →
      p ∈ (reconciliation_apply lg ms).applied) := by
  refine ⟨reconciliation_apply_length lg ms,
    reconciliation_apply_applied lg ms,
    reconciliation_apply_skipped lg ms, ?_, ?_⟩
  · intro p hp e hne hrec herr
    rw [reconciliation_apply_skipped]
    refine List.mem_filterMap.mpr ⟨p, hp, ?_⟩
    simp [skipEntry, processPair, hne, hrec, herr]
  · intro p hp hne hrec hok
    rw [reconciliation_apply_applied]
    refine List.mem_filter.mpr ⟨hp, ?_⟩
    simp [isApplied, processPair, hne, hrec, hok]

theorem apply_outcome_partition_witness :
    (Ledger.mk (fun mv => [mv + 100]) (fun _ => false)
        (fun _ => Except.error "boom")).payable_line_ids 2 ≠ [] ∧
    ((1, 2), "boom") ∈
      (reconciliation_apply
        (Ledger.mk (fun mv => [mv + 100]) (fun _ => false)
          (fun _ => Except.error "boom"))
        [(1, 2), (3, 4)]).skipped ∧
    (reconciliation_apply
        (Ledger.mk (fun mv => [mv + 100]) (fun _ => false)
          (fun _ => Except.error "boom"))
        [(1, 2), (3, 4)]).applied.length +
      (reconciliation_apply
        (Ledger.mk (fun mv => [mv + 100]) (fun _ => false)
          (fun _ => Except.error "boom"))
        [(1, 2), (3, 4)]).skipped.length = 2 := by
  have h := apply_outcome_partition
    (Ledger.mk (fun mv => [mv + 100]) (fun _ => false)
      (fun _ => Except.error "boom")) [(1, 2), (3, 4)]
  refine ⟨by simp, ?_, h.1⟩
  exact h.2.2.2.1 (1, 2) (by simp) "boom" (by simp) rfl rfl

/-- C7: `task_auto_reconcile` reports the total number of suggestions,
passes to the applier exactly those suggestions whose score is at
least `min_score` (default 0.95), and reports the applier's applied
and skipped counts, which partition the filtered subset. -/
theorem auto_reconcile_composition (lg : Ledger) (B : List BankLine)
    (I : List Invoice) (ms : ℚ) :
    auto_reconcile_default_min_score = 95/100 ∧
    task_auto_reconcile lg B I ms =
      ((reconciliation_suggest B I).length,
       (reconciliation_apply lg
         (((reconciliation_suggest B I).filter
             fun m => ms ≤ m.score).map
           fun m => (m.bank_line_id, m.move_id))).applied.length,
       (reconciliation_apply lg
         (((reconciliation_suggest B I).filter
             fun m => ms ≤ m.score).map
           fun m => (m.bank_line_id, m.move_id))).skipped.length) ∧
    (∀ m : Suggestion,
      m ∈ (reconciliation_suggest B I).filter (fun m => ms ≤ m.score) ↔
        m ∈ reconciliation_suggest B I ∧ ms ≤ m.score) ∧
    (task_auto_reconcile lg B I ms).2.1 +
      (task_auto_reconcile lg B I ms).2.2 =
      ((reconciliation_suggest B I).filter
        fun m => ms ≤ m.score).length := by
  refine ⟨rfl, rfl, ?_, ?_⟩
  · intro m
    simp [List.mem_filter]
  · show (reconciliation_apply lg _).applied.length +
      (reconciliation_apply lg _).skipped.length = _
    rw [reconciliation_apply_length]
    rw [List.length_map]

/-- A concrete ledger oracle for closed evaluations: no payable lines,
nothing reconciled, reconcile succeeds. -/
def lgEmpty : Ledger :=
  Ledger.mk (fun _ => []) (fun _ => false) (fun _ => Except.ok ())

/-- C8 counterexample: an apply request whose match list is present
but empty is not rejected: the endpoint returns a normal (`ok`)
response with empty `applied` and `skipped` lists, having done no
per-pair processing and issued no reconcile call, instead of aborting
with a validation error. -/
theorem apply_empty_matches_not_rejected :
    reconciliation_apply_request lgEmpty (some []) =
      Except.ok { applied := [], skipped := [], calls := [] } ∧
    (reconciliation_apply_request lgEmpty (some [])).isOk = true :=
  ⟨rfl, rfl⟩

/-- C8 amended: an apply request whose match list is empty or missing
is not rejected; `matches = payload.get("matches") or []` turns it
into an empty loop, and the endpoint returns a normal response with
empty `applied` and `skipped` lists, no per-pair processing and no
reconcile call. -/
theorem apply_empty_matches_noop (lg : Ledger)
    (mlist : Option (List (Nat × Nat))) (h : mlist.getD [] = []) :
    reconciliation_apply_request lg mlist =
      Except.ok { applied := [], skipped := [], calls := [] } := by
  rw [reconciliation_apply_request, h]
  rfl

theorem apply_empty_matches_noop_witness :
    (some ([] : List (Nat × Nat))).getD [] = [] ∧
    reconciliation_apply_request lgEmpty (some []) =
      Except.ok { applied := [], skipped := [], calls := [] } :=
  ⟨rfl, apply_empty_matches_noop lgEmpty (some []) rfl⟩

/-- A posted vendor invoice whose residual is zero but whose
`payment_state` is not `"paid"`. -/
def zeroResidualRow : InvoiceRow :=
  { id := 7, name := some "FAC/0007", move_type := "in_invoice",
    state := "posted", payment_state := "not_paid",
    amount_residual := 0, invoice_date := none, partner := none,
    company_id := 1 }

/-- A small unreconciled bank movement. -/
def smallBankLine : BankLine :=
  { id := 3, amount := 3/10, date := none, partner := none }

/-- The suggestion the engine emits for `smallBankLine` against
`zeroResidualRow`. -/
def zeroResidualSuggestion : Suggestion :=
  { bank_line_id := 3, move_id := 7, amount := 0, bank_date := none,
    invoice_date := none, invoice := some "FAC/0007", partner := none,
    score := 9/10 }

/-- C9 divergence witnessed on the code: because the search domain of
`invoices_unreconciled` is the disjunction
`"|", amount_residual > 0.01, payment_state != "paid"`, a posted
vendor invoice with residual 0 (and `payment_state` not `"paid"`) is
returned as a candidate, and `reconciliation_suggest` pairs it with a
bank line of amount 0.30 into a suggestion — against the claim (and
the call site's own comment, which asks for invoices with
residual > 0). -/
theorem zero_residual_invoice_candidate :
    invoices_unreconciled_domain none none none zeroResidualRow = true ∧
    zeroResidualRow.amount_residual = 0 ∧
    invoices_unreconciled [zeroResidualRow] none none none 500 =
      [invoiceItem zeroResidualRow] ∧
    ∃ s : Suggestion,
      reconciliation_suggest [smallBankLine]
        [invoiceItem zeroResidualRow] = [s] ∧
      s.move_id = zeroResidualRow.id ∧ s.amount = 0 := by
  have hpair : suggestPair smallBankLine (invoiceItem zeroResidualRow) =
      some zeroResidualSuggestion := by
    unfold suggestPair
    rw [if_pos (by norm_num [abs_le, smallBankLine, invoiceItem,
      zeroResidualRow])]
    simp [days_ok, partner_bonus, smallBankLine, invoiceItem,
      zeroResidualRow, zeroResidualSuggestion]
  have hdom : invoices_unreconciled_domain none none none
      zeroResidualRow = true := by
    simp [invoices_unreconciled_domain, zeroResidualRow]
  refine ⟨hdom, rfl, ?_, ?_⟩
  · simp [invoices_unreconciled, hdom]
  refine ⟨zeroResidualSuggestion, ?_, rfl, rfl⟩
  rw [reconciliation_suggest]
  have hraw : rawSuggestions [smallBankLine]
      [invoiceItem zeroResidualRow] = [zeroResidualSuggestion] := by
    simp [rawSuggestions, hpair]
  rw [hraw]
  rfl
